import Mathlib

/-!
# Verification of the library circulation engine

Shallow embedding of the circulation core of the Library-Management-System
repository: the `BorrowingRecord` model (src/models/BorrowingRecord.model.ts),
the loan-relevant slices of the `Book` model and the `Borrower` class
(src/domains/Borrower.ts), the policy constants (src/policies/business-rules.ts),
and the `Library` orchestrator (`processBorrowing`, `processReturn`,
`getOverdueBorrowings`, `registerUser`, `addBook`, `removeBook`).

Embedding conventions:
* Timestamps (`Date`) are naturals counting days; `setDate(getDate() + n)`
  becomes `+ n`.  Within one engine call every `new Date()` evaluates to the
  single `now` parameter.
* `UUID`s are naturals.  `uuidv4()` freshness is modelled by the counter
  `nextId` of the `Library` state: each generated id is the current counter
  value and the counter is bumped, so generated ids are globally fresh.
* A JS `Map` preserves insertion order, so each `Map` becomes a list of its
  values in insertion order; `Map.get` is `List.find?` on the key field,
  `Map.set` on an existing key is an in-place update, `Map.set` on a fresh
  key is an append, `Map.delete` is a filter on the key field.
* TS objects are heap references: `Book.borrowingHistory` and
  `Borrower.borrowingHistory` hold references to the very records stored in
  `Library.borrowingRecords`, so they are embedded as lists of record ids,
  the ledger list being the one authoritative copy.
* `throw` before any mutation becomes `Except.error`; since in the source
  every `throw` of an operation precedes every mutation of that operation,
  a failing call leaves the state untouched, which the embedding renders by
  returning no state on the error path.
* Descriptive string fields (title, author, ISBN, addresses, ...) are never
  read by the circulation engine and are omitted from the structures.
-/

namespace LibSys

/-- `BorrowingStatus` enum (src/enums, BorrowingStatus). -/
inductive BorrowingStatus where
  | active | returned | overdue | extended | cancelled | reserved
deriving DecidableEq, Repr

/-- `PhysicalState` enum (src/enums, PhysicalState). -/
inductive PhysicalState where
  | excellent | good | fair | poor | damaged | lost | inRepair
deriving DecidableEq, Repr

/-- `BookCategory` enum (docs list 25 values; the engine only ever matches on
`reference` in the documented design, so the values are interchangeable for
the engine; all 25 are carried). -/
inductive BookCategory where
  | fiction | nonFiction | science | technology | history | biography
  | philosophy | religion | poetry | drama | children | youngAdult
  | reference | education | art | music | travel | cooking | health
  | selfHelp | business | economics | law | politics | other
deriving DecidableEq, Repr

namespace BORROWING_POLICIES

/-- `BORROWING_POLICIES.MAX_BOOKS_PER_USER` (business-rules.ts). -/
def MAX_BOOKS_PER_USER : Nat := 3

end BORROWING_POLICIES

namespace TIME_POLICIES

/-- `TIME_POLICIES.DEFAULT_BORROWING_PERIOD` (business-rules.ts): 14 days. -/
def DEFAULT_BORROWING_PERIOD : Nat := 14

/-- `TIME_POLICIES.REFERENCE_BORROWING_PERIOD` (business-rules.ts): 7 days.
Defined in the policy table; `Library.calculateDueDate` never reads it. -/
def REFERENCE_BORROWING_PERIOD : Nat := 7

end TIME_POLICIES

namespace FEE_POLICIES

/-- `FEE_POLICIES.LATE_FEE_PER_DAY` (business-rules.ts): 0.5 per day. -/
def LATE_FEE_PER_DAY : ℚ := 1 / 2

/-- `FEE_POLICIES.MAX_LATE_FEE` (business-rules.ts): cap of 50.0. -/
def MAX_LATE_FEE : ℚ := 50

/-- `FEE_POLICIES.LATE_FEE_GRACE_PERIOD` (business-rules.ts): 1 day. -/
def LATE_FEE_GRACE_PERIOD : Nat := 1

end FEE_POLICIES

/-- `BorrowingRecord` (src/models/BorrowingRecord.model.ts), all fields. -/
structure BorrowingRecord where
  id : Nat
  bookId : Nat
  borrowerId : Nat
  borrowDate : Nat
  dueDate : Nat
  returnDate : Option Nat
  isExtended : Bool
  extensionCount : Nat
  status : BorrowingStatus
deriving DecidableEq, Repr

/-- `BorrowingRecord` constructor: `returnDate = null`, `isExtended = false`,
`extensionCount = 0`, `status = BorrowingStatus.ACTIVE`. -/
def mkBorrowingRecord (id bookId borrowerId borrowDate dueDate : Nat) :
    BorrowingRecord :=
  { id := id, bookId := bookId, borrowerId := borrowerId
    borrowDate := borrowDate, dueDate := dueDate, returnDate := none
    isExtended := false, extensionCount := 0, status := .active }

/-- Loan-relevant slice of the `Book` model (src/models/Book.model.ts);
`borrowingHistory` keeps record ids (see embedding conventions). -/
structure Book where
  id : Nat
  category : BookCategory
  isAvailable : Bool
  physicalState : PhysicalState
  borrowingHistory : List Nat
  isRestricted : Bool
  lastModified : Nat
deriving DecidableEq, Repr

/-- `Book` constructor: `isAvailable = true`, `physicalState = EXCELLENT`,
`borrowingHistory = []`, `isRestricted = false`, `lastModified = new Date()`. -/
def mkBook (id : Nat) (category : BookCategory) (now : Nat) : Book :=
  { id := id, category := category, isAvailable := true
    physicalState := .excellent, borrowingHistory := []
    isRestricted := false, lastModified := now }

/-- Loan-relevant slice of the `Borrower` class (src/domains/Borrower.ts). -/
structure Borrower where
  id : Nat
  isAuthorized : Bool
  isActiveStatus : Bool
  suspensionEndDate : Option Nat
  borrowedBooks : List Nat
  borrowingHistory : List Nat
  maxBooksAllowed : Nat
deriving DecidableEq, Repr

/-- `Borrower` constructor (src/domains/Borrower.ts lines 35-58):
`isAuthorized = false`, `isActiveStatus = true`, `suspensionEndDate = null`,
`borrowedBooks = []`, `borrowingHistory = []`, `maxBooksAllowed = 3`. -/
def mkBorrower (id : Nat) : Borrower :=
  { id := id, isAuthorized := false, isActiveStatus := true
    suspensionEndDate := none, borrowedBooks := []
    borrowingHistory := [], maxBooksAllowed := 3 }

/-- `Borrower.isSuspended` (src/domains/Borrower.ts lines 108-111):
`suspensionEndDate != null && new Date() < suspensionEndDate`. -/
def Borrower.isSuspended (b : Borrower) (now : Nat) : Bool :=
  match b.suspensionEndDate with
  | none => false
  | some d => now < d

/-- `Borrower.canBorrow` (src/domains/Borrower.ts lines 286-292).  The source
reads `this.borrowedBooks.length < this.maxBooksAllowed && this.isActive &&
!this.isSuspended()`: `this.isActive` is a reference to the method object,
not a call, and a function object is always truthy in JS, so that conjunct
is the constant `true`. -/
def Borrower.canBorrow (b : Borrower) (now : Nat) : Bool :=
  decide (b.borrowedBooks.length < b.maxBooksAllowed) && true
    && !(b.isSuspended now)

/-- Modelled from the spec: `canBorrow()` as §4.3 of the spec words it,
`authorized && !isSuspended(now) && size(openLoanIds) < maxLoansAllowed`.
Written only to be compared against `Borrower.canBorrow` above. -/
def Borrower.canBorrowSpec (b : Borrower) (now : Nat) : Bool :=
  b.isAuthorized && !(b.isSuspended now)
    && decide (b.borrowedBooks.length < b.maxBooksAllowed)

/-- Modelled from the spec: the late fee of §4.1,
`min((lateDays - graceDays) * perDayFee, feeCap)`, with the constants of
`FEE_POLICIES`.  No function in the engine source computes any fee; this
definition only serves to state what the spec claims the engine computes. -/
def lateFeeSpec (lateDays : Nat) : ℚ :=
  min ((↑(lateDays - FEE_POLICIES.LATE_FEE_GRACE_PERIOD) : ℚ)
        * FEE_POLICIES.LATE_FEE_PER_DAY)
      FEE_POLICIES.MAX_LATE_FEE

/-- Typed stand-ins for the `Error` values thrown by the `Library` methods. -/
inductive LibError where
  | bookExists | bookNotFound | bookBorrowed | userNotFound
  | bookNotAvailable | bookRestricted | notAuthorized | maxBooksLimit
  | noActiveRecord
deriving DecidableEq, Repr

/-- `Library` state (src/domains/Library.ts fields `books`, `users`,
`borrowingRecords`, plus the uuid-freshness counter; identity and contact
fields are never read by the engine). -/
structure Library where
  books : List Book
  users : List Borrower
  borrowingRecords : List BorrowingRecord
  nextId : Nat
deriving DecidableEq, Repr

/-- The `Library` constructor initialises every map empty. -/
def emptyLibrary : Library :=
  { books := [], users := [], borrowingRecords := [], nextId := 0 }

/-- `Map.get` on `books`. -/
def Library.getBook? (lib : Library) (bookId : Nat) : Option Book :=
  lib.books.find? (fun bk => bk.id == bookId)

/-- `Map.get` on `users`. -/
def Library.getUser? (lib : Library) (userId : Nat) : Option Borrower :=
  lib.users.find? (fun u => u.id == userId)

/-- Replace the element keyed like `v` by `v`: in-place mutation of the
object held by a JS `Map`, whose keys are unique. -/
def updateByKey {α : Type} (key : α → Nat) (l : List α) (v : α) : List α :=
  l.map (fun x => if key x == key v then v else x)

/-- Apply `g` to the element with key `i`: a field assignment on the object
held by a JS `Map` under key `i`. -/
def mapByKey {α : Type} (key : α → Nat) (i : Nat) (g : α → α) (l : List α) :
    List α :=
  l.map (fun x => if key x == i then g x else x)

/-- In-place mutation of the book object held by the `books` map. -/
def updateBookList (books : List Book) (bk : Book) : List Book :=
  updateByKey Book.id books bk

/-- In-place mutation of the borrower object held by the `users` map. -/
def updateUserList (users : List Borrower) (u : Borrower) : List Borrower :=
  updateByKey Borrower.id users u

/-- In-place mutation of a record object held by the `borrowingRecords` map. -/
def updateRecordList (recs : List BorrowingRecord) (r : BorrowingRecord) :
    List BorrowingRecord :=
  updateByKey BorrowingRecord.id recs r

/-- `Library.addBook`: throws if the id is already present, else inserts. -/
def Library.addBook (lib : Library) (bk : Book) : Except LibError Library :=
  match lib.getBook? bk.id with
  | some _ => .error .bookExists
  | none => .ok { lib with books := lib.books ++ [bk] }

/-- `Library.removeBook`: throws `not found` if absent, throws
`currently borrowed` if `!book.isAvailable`, else deletes the entry. -/
def Library.removeBook (lib : Library) (bookId : Nat) :
    Except LibError Library :=
  match lib.getBook? bookId with
  | none => .error .bookNotFound
  | some bk =>
    if bk.isAvailable = false then .error .bookBorrowed
    else .ok { lib with books := lib.books.filter (fun b => !(b.id == bookId)) }

/-- `Library.registerUser`: fresh uuid, `new Borrower(...)`, insert. -/
def Library.registerUser (lib : Library) : Library × Borrower :=
  let borrower := mkBorrower lib.nextId
  ({ lib with users := lib.users ++ [borrower], nextId := lib.nextId + 1 },
   borrower)

/-- `Library.calculateDueDate` (src lines 545-549): adds
`TIME_POLICIES.DEFAULT_BORROWING_PERIOD` to the borrow date; the book's
category is not consulted (the method does not even receive it). -/
def Library.calculateDueDate (borrowDate : Nat) : Nat :=
  borrowDate + TIME_POLICIES.DEFAULT_BORROWING_PERIOD

/-- `Library.processBorrowing` (src lines 485-508), checks in source order:
book exists, user exists, `book.isAvailable`, `book.isRestricted`,
`borrower.isAuthorized`, `borrowedBooks.length >= maxBooksAllowed`; then the
record is created and both entities and the ledger are updated.  The source
checks neither `physicalState` nor suspension here. -/
def Library.processBorrowing (lib : Library) (now bookId borrowerId : Nat) :
    Except LibError (Library × BorrowingRecord) :=
  match lib.getBook? bookId with
  | none => .error .bookNotFound
  | some book =>
    match lib.getUser? borrowerId with
    | none => .error .userNotFound
    | some borrower =>
      if book.isAvailable = false then .error .bookNotAvailable
      else if book.isRestricted = true then .error .bookRestricted
      else if borrower.isAuthorized = false then .error .notAuthorized
      else if borrower.maxBooksAllowed ≤ borrower.borrowedBooks.length then
        .error .maxBooksLimit
      else
        let borrowDate := now
        let dueDate := Library.calculateDueDate borrowDate
        let recordId := lib.nextId
        let record := mkBorrowingRecord recordId bookId borrowerId
          borrowDate dueDate
        let book' := { book with isAvailable := false
                                 borrowingHistory :=
                                   book.borrowingHistory ++ [recordId]
                                 lastModified := now }
        let borrower' := { borrower with
                            borrowedBooks := borrower.borrowedBooks ++ [bookId]
                            borrowingHistory :=
                              borrower.borrowingHistory ++ [recordId] }
        .ok ({ lib with books := updateBookList lib.books book'
                        users := updateUserList lib.users borrower'
                        borrowingRecords := lib.borrowingRecords ++ [record]
                        nextId := lib.nextId + 1 },
             record)

/-- The search predicate of `Library.processReturn`:
`record.bookId === bookId && record.borrowerId === borrowerId &&
record.status === BorrowingStatus.ACTIVE`. -/
def returnMatch (bookId borrowerId : Nat) (r : BorrowingRecord) : Bool :=
  r.bookId == bookId && r.borrowerId == borrowerId
    && r.status == BorrowingStatus.active

/-- `Library.processReturn` (src lines 510-524): looks the book and the
borrower up, finds the first ACTIVE record for the pair, sets
`returnDate = now` and `status = RETURNED` on it, marks the book available,
and filters the book id out of `borrowedBooks`.  No fee of any kind is
computed; `FEE_POLICIES` is not read. -/
def Library.processReturn (lib : Library) (now bookId borrowerId : Nat) :
    Except LibError Library :=
  match lib.getBook? bookId with
  | none => .error .bookNotFound
  | some book =>
    match lib.getUser? borrowerId with
    | none => .error .userNotFound
    | some borrower =>
      match lib.borrowingRecords.find? (returnMatch bookId borrowerId) with
      | none => .error .noActiveRecord
      | some activeRecord =>
        let record' := { activeRecord with returnDate := some now
                                           status := .returned }
        let book' := { book with isAvailable := true, lastModified := now }
        let borrower' := { borrower with
                            borrowedBooks :=
                              borrower.borrowedBooks.filter
                                (fun idv => !(idv == bookId)) }
        .ok { lib with books := updateBookList lib.books book'
                       users := updateUserList lib.users borrower'
                       borrowingRecords :=
                         updateRecordList lib.borrowingRecords record' }

/-- The filter predicate of `Library.getOverdueBorrowings`:
`record.status === ACTIVE && record.dueDate < now && !record.returnDate`. -/
def overdueMatch (now : Nat) (r : BorrowingRecord) : Bool :=
  r.status == BorrowingStatus.active && decide (r.dueDate < now)
    && r.returnDate == none

/-- `Library.getOverdueBorrowings` (src lines 526-531): a pure filter over
the ledger in map (= insertion) order; nothing is mutated. -/
def Library.getOverdueBorrowings (lib : Library) (now : Nat) :
    List BorrowingRecord :=
  lib.borrowingRecords.filter (overdueMatch now)

/-! ## Staff actions

The staff mutations of the spec (§4.4) and of the test-suite: they assign a
single field of one account or one catalog entry (`isAuthorized`,
`suspensionEndDate`, `isRestricted`, `physicalState`).  The `Librarian`
methods of the source only log, and the tests perform these assignments
directly on the objects, which is what the setters below embed. -/

/-- Staff assignment `user.isAuthorized = v`. -/
def Library.setAuthorized (lib : Library) (userId : Nat) (v : Bool) :
    Library :=
  let users' := mapByKey Borrower.id userId
    (fun u => { u with isAuthorized := v }) lib.users
  { lib with users := users' }

/-- Staff assignment `user.suspensionEndDate = d` (set or clear). -/
def Library.setSuspension (lib : Library) (userId : Nat) (d : Option Nat) :
    Library :=
  let users' := mapByKey Borrower.id userId
    (fun u => { u with suspensionEndDate := d }) lib.users
  { lib with users := users' }

/-- Staff assignment `book.isRestricted = v`. -/
def Library.setRestricted (lib : Library) (bookId : Nat) (v : Bool) :
    Library :=
  let books' := mapByKey Book.id bookId
    (fun bk => { bk with isRestricted := v }) lib.books
  { lib with books := books' }

/-- Staff assignment `book.physicalState = ps`. -/
def Library.setPhysicalState (lib : Library) (bookId : Nat)
    (ps : PhysicalState) : Library :=
  let books' := mapByKey Book.id bookId
    (fun bk => { bk with physicalState := ps }) lib.books
  { lib with books := books' }

/-! ## The engine as a transition system

A step is one successful engine operation or one staff assignment, executed
at time `t`; the pure queries (`getOverdueBorrowings`,
`sendDueDateReminders`) do not change the state.  A failed engine operation
throws before mutating anything, so it does not change the state either and
needs no step.  Reachability threads a monotone clock: real time never
decreases between calls. -/

/-- One engine or staff operation performed at time `t`. -/
inductive Step : Library → Nat → Library → Prop where
  | addBook (lib : Library) (t bookId : Nat) (cat : BookCategory)
      (lib' : Library) :
      lib.addBook (mkBook bookId cat t) = .ok lib' → Step lib t lib'
  | removeBook (lib : Library) (t bookId : Nat) (lib' : Library) :
      lib.removeBook bookId = .ok lib' → Step lib t lib'
  | registerUser (lib : Library) (t : Nat) :
      Step lib t (lib.registerUser).1
  | borrow (lib : Library) (t bookId borrowerId : Nat) (lib' : Library)
      (r : BorrowingRecord) :
      lib.processBorrowing t bookId borrowerId = .ok (lib', r) →
      Step lib t lib'
  | processReturn (lib : Library) (t bookId borrowerId : Nat)
      (lib' : Library) :
      lib.processReturn t bookId borrowerId = .ok lib' → Step lib t lib'
  | setAuthorized (lib : Library) (t userId : Nat) (v : Bool) :
      Step lib t (lib.setAuthorized userId v)
  | setSuspension (lib : Library) (t userId : Nat) (d : Option Nat) :
      Step lib t (lib.setSuspension userId d)
  | setRestricted (lib : Library) (t bookId : Nat) (v : Bool) :
      Step lib t (lib.setRestricted bookId v)
  | setPhysicalState (lib : Library) (t bookId : Nat) (ps : PhysicalState) :
      Step lib t (lib.setPhysicalState bookId ps)

/-- `Reachable lib t`: state `lib` is observable at time `t` starting from a
freshly constructed `Library`, with the clock never running backwards. -/
inductive Reachable : Library → Nat → Prop where
  | init (t : Nat) : Reachable emptyLibrary t
  | tick {lib : Library} {t t' : Nat} :
      Reachable lib t → t ≤ t' → Reachable lib t'
  | step {lib lib' : Library} {t : Nat} :
      Reachable lib t → Step lib t lib' → Reachable lib' t

/-! ## The inductive invariant -/

/-- A record is terminal for the ledger as the engine drives it when its
status is `returned` (the engine never produces `overdue`, `extended`,
`cancelled` or `reserved`). -/
def recOpen (r : BorrowingRecord) : Bool :=
  r.returnDate == none && !(r.status == BorrowingStatus.returned)
    && !(r.status == BorrowingStatus.cancelled)

/-- The inductive invariant of the circulation engine at time `t`. -/
structure Inv (lib : Library) (t : Nat) : Prop where
  statusOk : ∀ r ∈ lib.borrowingRecords,
    r.status = .active ∨ r.status = .returned
  retIff : ∀ r ∈ lib.borrowingRecords, (r.status = .active ↔ r.returnDate = none)
  availNoActive : ∀ bk ∈ lib.books, bk.isAvailable = true →
    ∀ r ∈ lib.borrowingRecords, r.bookId = bk.id → r.status ≠ .active
  unavailActive : ∀ bk ∈ lib.books, bk.isAvailable = false →
    ∃ r ∈ lib.borrowingRecords, r.bookId = bk.id ∧ r.status = .active
  activeBook : ∀ r ∈ lib.borrowingRecords, r.status = .active →
    ∃ bk ∈ lib.books, bk.id = r.bookId ∧ bk.isAvailable = false
  oneActive : lib.borrowingRecords.Pairwise (fun r1 r2 =>
    r1.bookId = r2.bookId → ¬(r1.status = .active ∧ r2.status = .active))
  capOk : ∀ u ∈ lib.users, u.borrowedBooks.length ≤ u.maxBooksAllowed
  dueEq : ∀ r ∈ lib.borrowingRecords,
    r.dueDate = r.borrowDate + TIME_POLICIES.DEFAULT_BORROWING_PERIOD
  borrowLe : ∀ r ∈ lib.borrowingRecords, r.borrowDate ≤ t
  sortedDue : lib.borrowingRecords.Pairwise (fun r1 r2 =>
    r1.dueDate ≤ r2.dueDate)
  bookIdsNodup : (lib.books.map Book.id).Nodup
  userIdsNodup : (lib.users.map Borrower.id).Nodup
  recIdsNodup : (lib.borrowingRecords.map BorrowingRecord.id).Nodup
  recIdsLt : ∀ r ∈ lib.borrowingRecords, r.id < lib.nextId
  userIdsLt : ∀ u ∈ lib.users, u.id < lib.nextId

/-! ## Helper lemmas about lookups and in-place updates -/

theorem getBook?_some {lib : Library} {i : Nat} {bk : Book}
    (h : lib.getBook? i = some bk) : bk ∈ lib.books ∧ bk.id = i := by
  refine ⟨List.mem_of_find?_eq_some h, ?_⟩
  simpa using List.find?_some h

theorem getBook?_none {lib : Library} {i : Nat}
    (h : lib.getBook? i = none) : ∀ bk ∈ lib.books, bk.id ≠ i := by
  rw [Library.getBook?, List.find?_eq_none] at h
  intro bk hbk
  simpa using h bk hbk

theorem getUser?_some {lib : Library} {i : Nat} {u : Borrower}
    (h : lib.getUser? i = some u) : u ∈ lib.users ∧ u.id = i := by
  refine ⟨List.mem_of_find?_eq_some h, ?_⟩
  simpa using List.find?_some h

theorem returnMatch_true {b u : Nat} {r : BorrowingRecord}
    (h : returnMatch b u r = true) :
    r.bookId = b ∧ r.borrowerId = u ∧ r.status = .active := by
  rw [returnMatch, Bool.and_eq_true, Bool.and_eq_true] at h
  refine ⟨by simpa using h.1.1, by simpa using h.1.2, by simpa using h.2⟩

theorem mem_updateByKey {α : Type} {key : α → Nat} {l : List α} {v x : α}
    (h : x ∈ updateByKey key l v) : x = v ∨ (x ∈ l ∧ key x ≠ key v) := by
  rw [updateByKey, List.mem_map] at h
  obtain ⟨y, hy, hxy⟩ := h
  by_cases hid : (key y == key v) = true
  · rw [if_pos hid] at hxy
    exact Or.inl hxy.symm
  · rw [if_neg hid] at hxy
    refine Or.inr ⟨hxy ▸ hy, ?_⟩
    rw [← hxy]
    simpa using hid

theorem mem_updateByKey_of_ne {α : Type} {key : α → Nat} {l : List α}
    {v x : α} (hx : x ∈ l) (hne : key x ≠ key v) : x ∈ updateByKey key l v := by
  rw [updateByKey, List.mem_map]
  exact ⟨x, hx, by simp [hne]⟩

theorem mem_updateByKey_self {α : Type} {key : α → Nat} {l : List α}
    {v y : α} (hy : y ∈ l) (hid : key y = key v) : v ∈ updateByKey key l v := by
  rw [updateByKey, List.mem_map]
  exact ⟨y, hy, by simp [hid]⟩

theorem map_key_updateByKey {α : Type} (key : α → Nat) (l : List α) (v : α) :
    (updateByKey key l v).map key = l.map key := by
  rw [updateByKey, List.map_map]
  refine List.map_congr_left ?_
  intro x _
  simp only [Function.comp_apply]
  by_cases h : key x = key v
  · simp [h]
  · simp [h]

theorem mem_mapByKey {α : Type} {key : α → Nat} {i : Nat} {g : α → α}
    {l : List α} {x : α} (h : x ∈ mapByKey key i g l) :
    ∃ y ∈ l, x = y ∨ (x = g y ∧ key y = i) := by
  rw [mapByKey, List.mem_map] at h
  obtain ⟨y, hy, hxy⟩ := h
  by_cases hid : (key y == i) = true
  · rw [if_pos hid] at hxy
    exact ⟨y, hy, Or.inr ⟨hxy.symm, by simpa using hid⟩⟩
  · rw [if_neg hid] at hxy
    exact ⟨y, hy, Or.inl hxy.symm⟩

theorem map_key_mapByKey {α : Type} (key : α → Nat) (i : Nat) (g : α → α)
    (l : List α) (hg : ∀ x, key (g x) = key x) :
    (mapByKey key i g l).map key = l.map key := by
  rw [mapByKey, List.map_map]
  refine List.map_congr_left ?_
  intro x _
  simp only [Function.comp_apply]
  by_cases h : key x = i
  · simp [h, hg]
  · simp [h]

theorem eq_of_mem_of_key_eq {α : Type} {key : α → Nat} {l : List α}
    (hnd : (l.map key).Nodup) {x y : α} (hx : x ∈ l) (hy : y ∈ l)
    (hxy : key x = key y) : x = y :=
  List.inj_on_of_nodup_map hnd hx hy hxy

theorem mapByKey_mem_image {α : Type} {key : α → Nat} {i : Nat} {g : α → α}
    {l : List α} {x : α} (hx : x ∈ l) :
    ∃ z ∈ mapByKey key i g l, z = x ∨ z = g x := by
  refine ⟨_, List.mem_map_of_mem _ hx, ?_⟩
  by_cases h : (key x == i) = true
  · simp [h]
  · simp [h]

/-! ## Success-case characterizations of the two mutating engine calls -/

/-- The book object written back by a successful borrow. -/
def borrowedBook (book : Book) (recordId now : Nat) : Book :=
  { book with isAvailable := false
              borrowingHistory := book.borrowingHistory ++ [recordId]
              lastModified := now }

/-- The borrower object written back by a successful borrow. -/
def borrowedUser (borrower : Borrower) (bookId recordId : Nat) : Borrower :=
  { borrower with borrowedBooks := borrower.borrowedBooks ++ [bookId]
                  borrowingHistory := borrower.borrowingHistory ++ [recordId] }

theorem processBorrowing_ok {lib : Library} {t b u : Nat} {lib' : Library}
    {r : BorrowingRecord}
    (h : lib.processBorrowing t b u = .ok (lib', r)) :
    ∃ book borrower,
      lib.getBook? b = some book ∧ lib.getUser? u = some borrower ∧
      book.isAvailable = true ∧ book.isRestricted = false ∧
      borrower.isAuthorized = true ∧
      borrower.borrowedBooks.length < borrower.maxBooksAllowed ∧
      r = mkBorrowingRecord lib.nextId b u t
            (t + TIME_POLICIES.DEFAULT_BORROWING_PERIOD) ∧
      lib' = { lib with
        books := updateBookList lib.books (borrowedBook book lib.nextId t)
        users := updateUserList lib.users (borrowedUser borrower b lib.nextId)
        borrowingRecords := lib.borrowingRecords ++ [r]
        nextId := lib.nextId + 1 } := by
  rw [Library.processBorrowing] at h
  split at h
  · simp at h
  next book hbk =>
  split at h
  · simp at h
  next borrower hu =>
  split at h
  · simp at h
  next hav =>
  split at h
  · simp at h
  next hres =>
  split at h
  · simp at h
  next hauth =>
  split at h
  · simp at h
  next hcap =>
  simp only [Except.ok.injEq, Prod.mk.injEq] at h
  refine ⟨book, borrower, hbk, hu, ?_, ?_, ?_, ?_, h.2.symm, ?_⟩
  · revert hav; cases book.isAvailable <;> simp
  · revert hres; cases book.isRestricted <;> simp
  · revert hauth; cases borrower.isAuthorized <;> simp
  · omega
  · rw [← h.1, ← h.2]
    rfl

/-- The borrower object written back by a successful return. -/
def returnedUser (borrower : Borrower) (bookId : Nat) : Borrower :=
  { borrower with borrowedBooks :=
      borrower.borrowedBooks.filter (fun idv => !(idv == bookId)) }

theorem processReturn_ok {lib : Library} {t b u : Nat} {lib' : Library}
    (h : lib.processReturn t b u = .ok lib') :
    ∃ book borrower rec,
      lib.getBook? b = some book ∧ lib.getUser? u = some borrower ∧
      lib.borrowingRecords.find? (returnMatch b u) = some rec ∧
      lib' = { lib with
        books := updateBookList lib.books
          { book with isAvailable := true, lastModified := t }
        users := updateUserList lib.users (returnedUser borrower b)
        borrowingRecords := updateRecordList lib.borrowingRecords
          { rec with returnDate := some t, status := .returned } } := by
  rw [Library.processReturn] at h
  split at h
  · simp at h
  next book hbk =>
  split at h
  · simp at h
  next borrower hu =>
  split at h
  · simp at h
  next rec hrec =>
  simp only [Except.ok.injEq] at h
  exact ⟨book, borrower, rec, hbk, hu, hrec, h.symm⟩

/-! ## Preservation of the invariant, one lemma per step kind -/

theorem inv_empty (t : Nat) : Inv emptyLibrary t := by
  constructor <;> simp [emptyLibrary]

theorem Inv.mono {lib : Library} {t t' : Nat} (h : Inv lib t) (ht : t ≤ t') :
    Inv lib t' :=
  { h with borrowLe := fun r hr => le_trans (h.borrowLe r hr) ht }

theorem inv_mapUsers {lib : Library} {t i : Nat} {g : Borrower → Borrower}
    (hgid : ∀ u, (g u).id = u.id)
    (hgbb : ∀ u, (g u).borrowedBooks = u.borrowedBooks)
    (hgmax : ∀ u, (g u).maxBooksAllowed = u.maxBooksAllowed)
    (h : Inv lib t) :
    Inv { lib with users := mapByKey Borrower.id i g lib.users } t := by
  refine { h with capOk := ?_, userIdsNodup := ?_, userIdsLt := ?_ }
  · intro u hu
    obtain ⟨y, hy, hcase⟩ := mem_mapByKey hu
    rcases hcase with h1 | ⟨h1, -⟩
    · rw [h1]
      exact h.capOk y hy
    · rw [h1, hgbb, hgmax]
      exact h.capOk y hy
  · have := map_key_mapByKey Borrower.id i g lib.users hgid
    simpa [this] using h.userIdsNodup
  · intro u hu
    obtain ⟨y, hy, hcase⟩ := mem_mapByKey hu
    rcases hcase with h1 | ⟨h1, -⟩
    · rw [h1]
      exact h.userIdsLt y hy
    · rw [h1, hgid]
      exact h.userIdsLt y hy

theorem inv_mapBooks {lib : Library} {t i : Nat} {g : Book → Book}
    (hgid : ∀ bk, (g bk).id = bk.id)
    (hgav : ∀ bk, (g bk).isAvailable = bk.isAvailable)
    (h : Inv lib t) :
    Inv { lib with books := mapByKey Book.id i g lib.books } t := by
  refine { h with availNoActive := ?_, unavailActive := ?_, activeBook := ?_,
                  bookIdsNodup := ?_ }
  · intro bk hbk hav r hr hrb
    obtain ⟨y, hy, hcase⟩ := mem_mapByKey hbk
    rcases hcase with h1 | ⟨h1, -⟩
    · rw [h1] at hav hrb
      exact h.availNoActive y hy hav r hr hrb
    · rw [h1, hgav] at hav
      rw [h1, hgid] at hrb
      exact h.availNoActive y hy hav r hr hrb
  · intro bk hbk hav
    obtain ⟨y, hy, hcase⟩ := mem_mapByKey hbk
    rcases hcase with h1 | ⟨h1, -⟩
    · rw [h1] at hav
      obtain ⟨r, hr, hrb, hst⟩ := h.unavailActive y hy hav
      exact ⟨r, hr, by rw [h1]; exact hrb, hst⟩
    · rw [h1, hgav] at hav
      obtain ⟨r, hr, hrb, hst⟩ := h.unavailActive y hy hav
      exact ⟨r, hr, by rw [h1, hgid]; exact hrb, hst⟩
  · intro r hr hst
    obtain ⟨bk, hbk, hid, hav⟩ := h.activeBook r hr hst
    obtain ⟨z, hz, hcase⟩ := @mapByKey_mem_image Book Book.id i g lib.books
      bk hbk
    rcases hcase with h1 | h1
    · exact ⟨z, hz, by rw [h1]; exact hid, by rw [h1]; exact hav⟩
    · exact ⟨z, hz, by rw [h1, hgid]; exact hid, by rw [h1, hgav]; exact hav⟩
  · have := map_key_mapByKey Book.id i g lib.books hgid
    simpa [this] using h.bookIdsNodup

theorem inv_addBook {lib : Library} {t bookId : Nat} {cat : BookCategory}
    {lib' : Library}
    (hstep : lib.addBook (mkBook bookId cat t) = .ok lib') (h : Inv lib t) :
    Inv lib' t := by
  rw [Library.addBook] at hstep
  split at hstep
  · simp at hstep
  next hg =>
  simp only [Except.ok.injEq] at hstep
  subst hstep
  have hgid : (mkBook bookId cat t).id = bookId := rfl
  rw [hgid] at hg
  refine { h with availNoActive := ?_, unavailActive := ?_, activeBook := ?_,
                  bookIdsNodup := ?_ }
  · intro bk hbk hav r hr hrb
    rcases List.mem_append.mp hbk with hbk | hbk
    · exact h.availNoActive bk hbk hav r hr hrb
    · have hbk' : bk = mkBook bookId cat t := by simpa using hbk
      intro hst
      obtain ⟨bk1, hbk1, hid1, -⟩ := h.activeBook r hr hst
      exact getBook?_none hg bk1 hbk1 (by rw [hid1, hrb, hbk']; rfl)
  · intro bk hbk hav
    rcases List.mem_append.mp hbk with hbk | hbk
    · obtain ⟨r, hr, hrb, hst⟩ := h.unavailActive bk hbk hav
      exact ⟨r, hr, hrb, hst⟩
    · have hbk' : bk = mkBook bookId cat t := by simpa using hbk
      rw [hbk'] at hav
      simp [mkBook] at hav
  · intro r hr hst
    obtain ⟨bk, hbk, hid, hav⟩ := h.activeBook r hr hst
    exact ⟨bk, List.mem_append_left _ hbk, hid, hav⟩
  · rw [List.map_append]
    refine List.Nodup.append h.bookIdsNodup (by simp) ?_
    intro a ha ha'
    simp only [List.map_cons, List.map_nil, List.mem_singleton] at ha'
    obtain ⟨bk1, hbk1, hid1⟩ := List.mem_map.mp ha
    exact getBook?_none hg bk1 hbk1 (by rw [hid1, ha']; rfl)

theorem inv_removeBook {lib : Library} {t bookId : Nat} {lib' : Library}
    (hstep : lib.removeBook bookId = .ok lib') (h : Inv lib t) :
    Inv lib' t := by
  rw [Library.removeBook] at hstep
  split at hstep
  · simp at hstep
  next bk hg =>
  split at hstep
  · simp at hstep
  next hav =>
  have hav' : bk.isAvailable = true := by
    revert hav; cases bk.isAvailable <;> simp
  simp only [Except.ok.injEq] at hstep
  subst hstep
  obtain ⟨hbkmem, hbkid⟩ := getBook?_some hg
  refine { h with availNoActive := ?_, unavailActive := ?_, activeBook := ?_,
                  bookIdsNodup := ?_ }
  · intro x hx hxav r hr hrb
    exact h.availNoActive x (List.mem_of_mem_filter hx) hxav r hr hrb
  · intro x hx hxav
    exact h.unavailActive x (List.mem_of_mem_filter hx) hxav
  · intro r hr hst
    obtain ⟨bk1, hbk1, hid1, hav1⟩ := h.activeBook r hr hst
    have hne : bk1.id ≠ bookId := by
      intro hcontra
      have : bk1 = bk := eq_of_mem_of_key_eq h.bookIdsNodup hbk1 hbkmem
        (by rw [hcontra, hbkid])
      rw [this, hav'] at hav1
      exact Bool.true_eq_false.mp hav1
    refine ⟨bk1, List.mem_filter.mpr ⟨hbk1, by simpa using hne⟩, hid1, hav1⟩
  · exact List.Nodup.sublist (List.Sublist.map Book.id
      (List.filter_sublist _)) h.bookIdsNodup

theorem inv_registerUser {lib : Library} {t : Nat} (h : Inv lib t) :
    Inv (lib.registerUser).1 t := by
  rw [Library.registerUser]
  refine { h with capOk := ?_, userIdsNodup := ?_, recIdsLt := ?_,
                  userIdsLt := ?_ }
  · intro u hu
    rcases List.mem_append.mp hu with hu | hu
    · exact h.capOk u hu
    · have : u = mkBorrower lib.nextId := by simpa using hu
      rw [this]
      simp [mkBorrower]
  · rw [List.map_append]
    refine List.Nodup.append h.userIdsNodup (by simp) ?_
    intro a ha ha'
    simp only [List.map_cons, List.map_nil, List.mem_singleton] at ha'
    obtain ⟨u1, hu1, hid1⟩ := List.mem_map.mp ha
    have := h.userIdsLt u1 hu1
    rw [hid1, ha'] at this
    simp [mkBorrower] at this
  · intro r hr
    exact lt_trans (h.recIdsLt r hr) (Nat.lt_succ_self _)
  · intro u hu
    rcases List.mem_append.mp hu with hu | hu
    · exact lt_trans (h.userIdsLt u hu) (Nat.lt_succ_self _)
    · have : u = mkBorrower lib.nextId := by simpa using hu
      rw [this]
      simp [mkBorrower]

theorem oneActive_symm : Symmetric (fun r1 r2 : BorrowingRecord =>
    r1.bookId = r2.bookId → ¬(r1.status = .active ∧ r2.status = .active)) := by
  intro x y hxy hsame hboth
  exact hxy hsame.symm ⟨hboth.2, hboth.1⟩

theorem pairwise_oneActive_updateByKey {l : List BorrowingRecord}
    {v : BorrowingRecord} (hv : v.status ≠ .active)
    (hl : l.Pairwise (fun r1 r2 => r1.bookId = r2.bookId →
      ¬(r1.status = .active ∧ r2.status = .active))) :
    (updateByKey BorrowingRecord.id l v).Pairwise (fun r1 r2 =>
      r1.bookId = r2.bookId → ¬(r1.status = .active ∧ r2.status = .active)) := by
  rw [updateByKey, List.pairwise_map]
  refine List.Pairwise.imp ?_ hl
  intro a c hac hsame hboth
  by_cases ha : (a.id == v.id) = true
  · rw [if_pos ha] at hboth
    exact hv hboth.1
  · rw [if_neg ha] at hboth hsame
    by_cases hc : (c.id == v.id) = true
    · rw [if_pos hc] at hboth
      exact hv hboth.2
    · rw [if_neg hc] at hboth hsame
      exact hac hsame hboth

theorem pairwise_sortedDue_updateByKey {l : List BorrowingRecord}
    {v : BorrowingRecord}
    (hvdue : ∀ x ∈ l, x.id = v.id → x.dueDate = v.dueDate)
    (hl : l.Pairwise (fun r1 r2 => r1.dueDate ≤ r2.dueDate)) :
    (updateByKey BorrowingRecord.id l v).Pairwise
      (fun r1 r2 => r1.dueDate ≤ r2.dueDate) := by
  rw [updateByKey, List.pairwise_map]
  refine List.Pairwise.imp_of_mem ?_ hl
  intro a c ha hc hac
  have hada : (if (a.id == v.id) = true then v else a).dueDate = a.dueDate := by
    by_cases h1 : (a.id == v.id) = true
    · rw [if_pos h1, ← hvdue a ha (by simpa using h1)]
    · rw [if_neg h1]
  have hcdc : (if (c.id == v.id) = true then v else c).dueDate = c.dueDate := by
    by_cases h1 : (c.id == v.id) = true
    · rw [if_pos h1, ← hvdue c hc (by simpa using h1)]
    · rw [if_neg h1]
  rw [hada, hcdc]
  exact hac

theorem inv_borrow {lib : Library} {t b u : Nat} {lib' : Library}
    {r : BorrowingRecord}
    (hstep : lib.processBorrowing t b u = .ok (lib', r)) (h : Inv lib t) :
    Inv lib' t := by
  obtain ⟨book, borrower, hbk, hu, hav, hres, hauth, hcap, hrEq, hlib⟩ :=
    processBorrowing_ok hstep
  obtain ⟨hbkmem, hbkid⟩ := getBook?_some hbk
  obtain ⟨humem, huid⟩ := getUser?_some hu
  subst hlib
  subst hrEq
  have hbnewid : (borrowedBook book lib.nextId t).id = book.id := rfl
  constructor
  · intro r' hr'
    rcases List.mem_append.mp hr' with hr' | hr'
    · exact h.statusOk r' hr'
    · have : r' = mkBorrowingRecord lib.nextId b u t
          (t + TIME_POLICIES.DEFAULT_BORROWING_PERIOD) := by simpa using hr'
      rw [this]
      exact Or.inl rfl
  · intro r' hr'
    rcases List.mem_append.mp hr' with hr' | hr'
    · exact h.retIff r' hr'
    · have : r' = mkBorrowingRecord lib.nextId b u t
          (t + TIME_POLICIES.DEFAULT_BORROWING_PERIOD) := by simpa using hr'
      rw [this]
      exact iff_of_true rfl rfl
  · intro bk' hbk' hav' r' hr' hrb'
    rcases mem_updateByKey hbk' with h1 | ⟨h1mem, h1ne⟩
    · rw [h1] at hav'
      simp [borrowedBook] at hav'
    · rcases List.mem_append.mp hr' with hr' | hr'
      · exact h.availNoActive bk' h1mem hav' r' hr' hrb'
      · have : r' = mkBorrowingRecord lib.nextId b u t
            (t + TIME_POLICIES.DEFAULT_BORROWING_PERIOD) := by simpa using hr'
        rw [this] at hrb'
        rw [hbnewid] at h1ne
        have hb' : bk'.id = b := by rw [← hrb']; rfl
        exact absurd (by rw [hb', ← hbkid] : bk'.id = book.id) h1ne
  · intro bk' hbk' hav'
    rcases mem_updateByKey hbk' with h1 | ⟨h1mem, h1ne⟩
    · refine ⟨mkBorrowingRecord lib.nextId b u t
        (t + TIME_POLICIES.DEFAULT_BORROWING_PERIOD),
        List.mem_append_right _ (by simp), ?_, rfl⟩
      rw [h1, hbnewid, hbkid]
      rfl
    · obtain ⟨r0, hr0, hr0b, hr0st⟩ := h.unavailActive bk' h1mem hav'
      exact ⟨r0, List.mem_append_left _ hr0, hr0b, hr0st⟩
  · intro r' hr' hst'
    rcases List.mem_append.mp hr' with hr' | hr'
    · obtain ⟨bk1, hbk1, hid1, hav1⟩ := h.activeBook r' hr' hst'
      have hne : bk1.id ≠ (borrowedBook book lib.nextId t).id := by
        rw [hbnewid]
        intro hcontra
        have : bk1 = book := eq_of_mem_of_key_eq h.bookIdsNodup hbk1 hbkmem
          hcontra
        rw [this, hav] at hav1
        exact Bool.true_eq_false.mp hav1
      exact ⟨bk1, mem_updateByKey_of_ne hbk1 hne, hid1, hav1⟩
    · have : r' = mkBorrowingRecord lib.nextId b u t
          (t + TIME_POLICIES.DEFAULT_BORROWING_PERIOD) := by simpa using hr'
      refine ⟨borrowedBook book lib.nextId t,
        mem_updateByKey_self hbkmem rfl, ?_, rfl⟩
      rw [this, hbnewid, hbkid]
      rfl
  · rw [List.pairwise_append]
    refine ⟨h.oneActive, by simp, ?_⟩
    intro r1 hr1 r2 hr2 hsame hboth
    have : r2 = mkBorrowingRecord lib.nextId b u t
        (t + TIME_POLICIES.DEFAULT_BORROWING_PERIOD) := by simpa using hr2
    rw [this] at hsame
    have hr1b : r1.bookId = book.id := by rw [hsame, ← hbkid]; rfl
    exact h.availNoActive book hbkmem hav r1 hr1 hr1b hboth.1
  · intro u' hu'
    rcases mem_updateByKey hu' with h1 | ⟨h1mem, -⟩
    · rw [h1]
      simp only [borrowedUser, List.length_append, List.length_cons,
        List.length_nil]
      omega
    · exact h.capOk u' h1mem
  · intro r' hr'
    rcases List.mem_append.mp hr' with hr' | hr'
    · exact h.dueEq r' hr'
    · have : r' = mkBorrowingRecord lib.nextId b u t
          (t + TIME_POLICIES.DEFAULT_BORROWING_PERIOD) := by simpa using hr'
      rw [this]
      rfl
  · intro r' hr'
    rcases List.mem_append.mp hr' with hr' | hr'
    · exact h.borrowLe r' hr'
    · have : r' = mkBorrowingRecord lib.nextId b u t
          (t + TIME_POLICIES.DEFAULT_BORROWING_PERIOD) := by simpa using hr'
      rw [this]
      exact le_refl t
  · rw [List.pairwise_append]
    refine ⟨h.sortedDue, by simp, ?_⟩
    intro r1 hr1 r2 hr2
    have : r2 = mkBorrowingRecord lib.nextId b u t
        (t + TIME_POLICIES.DEFAULT_BORROWING_PERIOD) := by simpa using hr2
    rw [this]
    have h1 := h.dueEq r1 hr1
    have h2 := h.borrowLe r1 hr1
    show r1.dueDate ≤ t + TIME_POLICIES.DEFAULT_BORROWING_PERIOD
    omega
  · show ((updateBookList lib.books _).map Book.id).Nodup
    rw [updateBookList, map_key_updateByKey]
    exact h.bookIdsNodup
  · show ((updateUserList lib.users _).map Borrower.id).Nodup
    rw [updateUserList, map_key_updateByKey]
    exact h.userIdsNodup
  · rw [List.map_append]
    refine List.Nodup.append h.recIdsNodup (by simp) ?_
    intro a ha ha'
    simp only [List.map_cons, List.map_nil, List.mem_singleton] at ha'
    obtain ⟨r1, hr1, hid1⟩ := List.mem_map.mp ha
    have := h.recIdsLt r1 hr1
    rw [hid1, ha'] at this
    simp [mkBorrowingRecord] at this
  · intro r' hr'
    rcases List.mem_append.mp hr' with hr' | hr'
    · exact lt_trans (h.recIdsLt r' hr') (Nat.lt_succ_self _)
    · have : r' = mkBorrowingRecord lib.nextId b u t
          (t + TIME_POLICIES.DEFAULT_BORROWING_PERIOD) := by simpa using hr'
      rw [this]
      exact Nat.lt_succ_self _
  · intro u' hu'
    rcases mem_updateByKey hu' with h1 | ⟨h1mem, -⟩
    · rw [h1]
      show borrower.id < lib.nextId + 1
      exact lt_trans (h.userIdsLt borrower humem) (Nat.lt_succ_self _)
    · exact lt_trans (h.userIdsLt u' h1mem) (Nat.lt_succ_self _)

theorem inv_return {lib : Library} {t b u : Nat} {lib' : Library}
    (hstep : lib.processReturn t b u = .ok lib') (h : Inv lib t) :
    Inv lib' t := by
  obtain ⟨book, borrower, rec, hbk, hu, hfind, hlib⟩ := processReturn_ok hstep
  obtain ⟨hbkmem, hbkid⟩ := getBook?_some hbk
  obtain ⟨humem, huid⟩ := getUser?_some hu
  have hrecmem : rec ∈ lib.borrowingRecords := List.mem_of_find?_eq_some hfind
  obtain ⟨hrecb, hrecu, hrecst⟩ := returnMatch_true (List.find?_some hfind)
  subst hlib
  constructor
  · intro r' hr'
    rcases mem_updateByKey hr' with h1 | ⟨h1mem, -⟩
    · rw [h1]
      exact Or.inr rfl
    · exact h.statusOk r' h1mem
  · intro r' hr'
    rcases mem_updateByKey hr' with h1 | ⟨h1mem, -⟩
    · rw [h1]
      exact iff_of_false (by simp) (by simp)
    · exact h.retIff r' h1mem
  · intro bk' hbk' hav' r' hr' hrb'
    rcases mem_updateByKey hbk' with hb1 | ⟨hb1mem, hb1ne⟩
    · rcases mem_updateByKey hr' with hr1 | ⟨hr1mem, hr1ne⟩
      · rw [hr1]
        simp
      · intro hst'
        have hr'ne : r' ≠ rec := by
          intro hcontra
          rw [hcontra] at hr1ne
          exact hr1ne rfl
        have hrb : r'.bookId = rec.bookId := by
          rw [hrb', hb1]
          show book.id = rec.bookId
          rw [hbkid, hrecb]
        exact (List.Pairwise.forall oneActive_symm h.oneActive hr1mem hrecmem
          hr'ne) hrb ⟨hst', hrecst⟩
    · rcases mem_updateByKey hr' with hr1 | ⟨hr1mem, -⟩
      · rw [hr1]
        simp
      · exact h.availNoActive bk' hb1mem hav' r' hr1mem hrb'
  · intro bk' hbk' hav'
    rcases mem_updateByKey hbk' with hb1 | ⟨hb1mem, hb1ne⟩
    · rw [hb1] at hav'
      simp at hav'
    · obtain ⟨r0, hr0, hr0b, hr0st⟩ := h.unavailActive bk' hb1mem hav'
      have hr0ne : r0.id ≠ rec.id := by
        intro hcontra
        have hr0rec : r0 = rec := eq_of_mem_of_key_eq h.recIdsNodup hr0
          hrecmem hcontra
        rw [hr0rec, hrecb] at hr0b
        refine hb1ne ?_
        show bk'.id = book.id
        rw [← hr0b, ← hbkid]
      exact ⟨r0, mem_updateByKey_of_ne hr0 hr0ne, hr0b, hr0st⟩
  · intro r' hr' hst'
    rcases mem_updateByKey hr' with hr1 | ⟨hr1mem, hr1ne⟩
    · rw [hr1] at hst'
      simp at hst'
    · obtain ⟨bk1, hbk1, hid1, hav1⟩ := h.activeBook r' hr1mem hst'
      have hr'ne : r' ≠ rec := by
        intro hcontra
        rw [hcontra] at hr1ne
        exact hr1ne rfl
      have hrbne : r'.bookId ≠ b := by
        intro hcontra
        have hrb : r'.bookId = rec.bookId := by rw [hcontra, hrecb]
        exact (List.Pairwise.forall oneActive_symm h.oneActive hr1mem hrecmem
          hr'ne) hrb ⟨hst', hrecst⟩
      have hbk1ne : bk1.id ≠ book.id := by
        rw [hid1, hbkid]
        exact hrbne
      exact ⟨bk1, mem_updateByKey_of_ne hbk1 hbk1ne, hid1, hav1⟩
  · exact pairwise_oneActive_updateByKey (by simp) h.oneActive
  · intro u' hu'
    rcases mem_updateByKey hu' with h1 | ⟨h1mem, -⟩
    · rw [h1]
      exact le_trans (List.length_filter_le _ _) (h.capOk borrower humem)
    · exact h.capOk u' h1mem
  · intro r' hr'
    rcases mem_updateByKey hr' with h1 | ⟨h1mem, -⟩
    · rw [h1]
      show rec.dueDate = rec.borrowDate + TIME_POLICIES.DEFAULT_BORROWING_PERIOD
      exact h.dueEq rec hrecmem
    · exact h.dueEq r' h1mem
  · intro r' hr'
    rcases mem_updateByKey hr' with h1 | ⟨h1mem, -⟩
    · rw [h1]
      show rec.borrowDate ≤ t
      exact h.borrowLe rec hrecmem
    · exact h.borrowLe r' h1mem
  · refine pairwise_sortedDue_updateByKey ?_ h.sortedDue
    intro x hx hxid
    have : x = rec := eq_of_mem_of_key_eq h.recIdsNodup hx hrecmem hxid
    rw [this]
  · show ((updateBookList lib.books _).map Book.id).Nodup
    rw [updateBookList, map_key_updateByKey]
    exact h.bookIdsNodup
  · show ((updateUserList lib.users _).map Borrower.id).Nodup
    rw [updateUserList, map_key_updateByKey]
    exact h.userIdsNodup
  · show ((updateRecordList lib.borrowingRecords _).map
      BorrowingRecord.id).Nodup
    rw [updateRecordList, map_key_updateByKey]
    exact h.recIdsNodup
  · intro r' hr'
    rcases mem_updateByKey hr' with h1 | ⟨h1mem, -⟩
    · rw [h1]
      show rec.id < lib.nextId
      exact h.recIdsLt rec hrecmem
    · exact h.recIdsLt r' h1mem
  · intro u' hu'
    rcases mem_updateByKey hu' with h1 | ⟨h1mem, -⟩
    · rw [h1]
      show borrower.id < lib.nextId
      exact h.userIdsLt borrower humem
    · exact h.userIdsLt u' h1mem

/-- Every state reachable through the engine's operations satisfies the
inductive invariant. -/
theorem reachable_inv {lib : Library} {t : Nat} (h : Reachable lib t) :
    Inv lib t := by
  induction h with
  | init t => exact inv_empty t
  | tick hr ht ih => exact ih.mono ht
  | step hr hs ih =>
    cases hs <;>
      first
        | exact inv_registerUser ih
        | exact inv_mapUsers (fun u => rfl) (fun u => rfl) (fun u => rfl) ih
        | exact inv_mapBooks (fun bk => rfl) (fun bk => rfl) ih
        | (rename_i hok
           first
             | exact inv_addBook hok ih
             | exact inv_removeBook hok ih
             | exact inv_borrow hok ih
             | exact inv_return hok ih)

/-! ## A concrete trace of the engine, used to instantiate the theorems

One technology book (id 100) is added at day 0, one account (id 0) is
registered, authorized by staff, and borrows the book at day 0. -/

/-- The book added at day 0. -/
def bookA : Book := mkBook 100 BookCategory.technology 0

/-- The registered account after staff authorization. -/
def userA : Borrower := { mkBorrower 0 with isAuthorized := true }

/-- The state just before the borrow. -/
def libReadyA : Library :=
  { books := [bookA], users := [userA], borrowingRecords := [], nextId := 1 }

/-- The loan record created by the borrow at day 0 (due at day 14). -/
def recA : BorrowingRecord := mkBorrowingRecord 1 100 0 0 14

/-- The book object after the borrow. -/
def bookAout : Book :=
  { bookA with isAvailable := false, borrowingHistory := [1],
               lastModified := 0 }

/-- The account object after the borrow. -/
def userAout : Borrower :=
  { userA with borrowedBooks := [100], borrowingHistory := [1] }

/-- The state just after the borrow. -/
def libLoanedA : Library :=
  { books := [bookAout], users := [userAout], borrowingRecords := [recA],
    nextId := 2 }

/-- The state after only the book was added. -/
def libShelvedA : Library :=
  { books := [bookA], users := [], borrowingRecords := [], nextId := 0 }

/-- The state after the account was registered but not yet authorized. -/
def libRegisteredA : Library :=
  { books := [bookA], users := [mkBorrower 0], borrowingRecords := [],
    nextId := 1 }

theorem reachable_libReadyA : Reachable libReadyA 0 := by
  have h0 : Reachable emptyLibrary 0 := Reachable.init 0
  have h1 : Reachable libShelvedA 0 :=
    Reachable.step h0
      (Step.addBook _ 0 100 BookCategory.technology _ (by rfl))
  have h2 : Reachable libRegisteredA 0 :=
    Reachable.step h1 (Step.registerUser _ 0)
  exact Reachable.step h2 (Step.setAuthorized _ 0 0 true)

theorem borrow_libReadyA :
    libReadyA.processBorrowing 0 100 0 = .ok (libLoanedA, recA) := by rfl

theorem reachable_libLoanedA : Reachable libLoanedA 0 :=
  Reachable.step reachable_libReadyA
    (Step.borrow _ 0 100 0 _ _ borrow_libReadyA)

theorem reachable_libLoanedA20 : Reachable libLoanedA 20 :=
  Reachable.tick reachable_libLoanedA (by omega)

/-! ## The validation chain of `processBorrowing`, case by case -/

/-- The complete case analysis of `processBorrowing`: each conjunct states
which error the first violated check of the source order produces (book
exists, user exists, available, unrestricted, authorized, under cap), and
that the call succeeds when every check passes.  Neither the book's
`physicalState` nor the borrower's suspension appears in any condition. -/
theorem processBorrowing_cases (lib : Library) (now bookId borrowerId : Nat) :
    (lib.getBook? bookId = none →
      lib.processBorrowing now bookId borrowerId = .error .bookNotFound) ∧
    (∀ book, lib.getBook? bookId = some book →
      ((lib.getUser? borrowerId = none →
        lib.processBorrowing now bookId borrowerId = .error .userNotFound) ∧
       (∀ borrower, lib.getUser? borrowerId = some borrower →
        ((book.isAvailable = false →
          lib.processBorrowing now bookId borrowerId =
            .error .bookNotAvailable) ∧
         (book.isAvailable = true → book.isRestricted = true →
          lib.processBorrowing now bookId borrowerId =
            .error .bookRestricted) ∧
         (book.isAvailable = true → book.isRestricted = false →
          borrower.isAuthorized = false →
          lib.processBorrowing now bookId borrowerId =
            .error .notAuthorized) ∧
         (book.isAvailable = true → book.isRestricted = false →
          borrower.isAuthorized = true →
          borrower.maxBooksAllowed ≤ borrower.borrowedBooks.length →
          lib.processBorrowing now bookId borrowerId =
            .error .maxBooksLimit) ∧
         (book.isAvailable = true → book.isRestricted = false →
          borrower.isAuthorized = true →
          borrower.borrowedBooks.length < borrower.maxBooksAllowed →
          (lib.processBorrowing now bookId borrowerId).isOk = true))))) := by
  refine ⟨?_, ?_⟩
  · intro h
    rw [Library.processBorrowing, h]
  · intro book hb
    refine ⟨?_, ?_⟩
    · intro h
      simp only [Library.processBorrowing, hb, h]
    · intro borrower hu
      refine ⟨?_, ?_, ?_, ?_, ?_⟩
      · intro hav
        simp only [Library.processBorrowing, hb, hu]
        rw [if_pos hav]
      · intro hav hres
        simp only [Library.processBorrowing, hb, hu]
        rw [if_neg (by simp [hav]), if_pos hres]
      · intro hav hres hauth
        simp only [Library.processBorrowing, hb, hu]
        rw [if_neg (by simp [hav]), if_neg (by simp [hres]), if_pos hauth]
      · intro hav hres hauth hcap
        simp only [Library.processBorrowing, hb, hu]
        rw [if_neg (by simp [hav]), if_neg (by simp [hres]),
          if_neg (by simp [hauth]), if_pos hcap]
      · intro hav hres hauth hcap
        simp only [Library.processBorrowing, hb, hu]
        rw [if_neg (by simp [hav]), if_neg (by simp [hres]),
          if_neg (by simp [hauth]), if_neg (by omega)]
        rfl

/-- An unauthorized account never borrows successfully, whatever the entry. -/
theorem borrow_unauthorized_fails {lib : Library} {now b u : Nat}
    {usr : Borrower} (hu : lib.getUser? u = some usr)
    (hauth : usr.isAuthorized = false) :
    (lib.processBorrowing now b u).isOk = false := by
  have h := processBorrowing_cases lib now b u
  cases hb : lib.getBook? b with
  | none => rw [h.1 hb]; rfl
  | some book =>
    have h2 := (h.2 book hb).2 usr hu
    by_cases hav : book.isAvailable = false
    · rw [h2.1 hav]; rfl
    · have hav' : book.isAvailable = true := by
        revert hav; cases book.isAvailable <;> simp
      by_cases hres : book.isRestricted = true
      · rw [h2.2.1 hav' hres]; rfl
      · have hres' : book.isRestricted = false := by
          revert hres; cases book.isRestricted <;> simp
        rw [h2.2.2.1 hav' hres' hauth]; rfl

/-- Looking a key up after an in-place update finds the updated object. -/
theorem find?_key_updateByKey {α : Type} (key : α → Nat) {l : List α}
    {v old : α} {i : Nat}
    (hfind : l.find? (fun x => key x == i) = some old)
    (hid : key v = key old) :
    (updateByKey key l v).find? (fun x => key x == i) = some v := by
  induction l with
  | nil => simp at hfind
  | cons a l ih =>
    have hodi : (key old == i) = true := by
      have h0 := List.find?_some (p := fun x => key x == i) hfind
      simpa using h0
    rw [updateByKey, List.map_cons]
    by_cases ha : (key a == i) = true
    · have h1 : List.find? (fun x => key x == i) (a :: l) = some a :=
        List.find?_cons_of_pos (p := fun x => key x == i) l ha
      rw [h1] at hfind
      injection hfind with hfind
      have h2 : key v = key a := by rw [hid, ← hfind]
      have hav : (key a == key v) = true := by simp [h2]
      rw [if_pos hav]
      refine List.find?_cons_of_pos (p := fun x => key x == i) _ ?_
      show (key v == i) = true
      rw [h2]
      exact ha
    · have h1 : List.find? (fun x => key x == i) (a :: l) =
          List.find? (fun x => key x == i) l :=
        List.find?_cons_of_neg (p := fun x => key x == i) l ha
      rw [h1] at hfind
      have hvne : key a ≠ key v := by
        have h2 : key a ≠ i := by simpa using ha
        have h3 : key old = i := by simpa using hodi
        rw [hid, h3]
        exact h2
      rw [if_neg (by simpa using hvne)]
      have h4 : List.find? (fun x => key x == i)
          (a :: List.map (fun x => if (key x == key v) = true then v else x) l)
          = List.find? (fun x => key x == i)
            (List.map (fun x => if (key x == key v) = true then v else x) l) :=
        List.find?_cons_of_neg (p := fun x => key x == i) _ ha
      rw [h4]
      have h5 := ih hfind
      rw [updateByKey] at h5
      exact h5

/-! ## Further concrete states for the claims -/

/-- Account 0 after staff suspended it until day 100. -/
def userSusp : Borrower := { userA with suspensionEndDate := some 100 }

/-- The ready state with account 0 suspended until day 100. -/
def libSusp : Library :=
  { books := [bookA], users := [userSusp], borrowingRecords := [],
    nextId := 1 }

/-- Book 100 after staff marked it damaged. -/
def bookDam : Book := { bookA with physicalState := PhysicalState.damaged }

/-- The ready state with book 100 damaged. -/
def libDam : Library :=
  { books := [bookDam], users := [userA], borrowingRecords := [],
    nextId := 1 }

theorem reachable_libSusp50 : Reachable libSusp 50 :=
  Reachable.tick
    (Reachable.step reachable_libReadyA (Step.setSuspension _ 0 0 (some 100)))
    (by omega)

theorem reachable_libDam : Reachable libDam 0 :=
  Reachable.step reachable_libReadyA
    (Step.setPhysicalState _ 0 100 PhysicalState.damaged)

theorem reachable_libRegisteredA : Reachable libRegisteredA 0 := by
  have h1 : Reachable libShelvedA 0 :=
    Reachable.step (Reachable.init 0)
      (Step.addBook _ 0 100 BookCategory.technology _ (by rfl))
  exact Reachable.step h1 (Step.registerUser _ 0)

/-! ## The claims -/

/-- C1, counterexample: in the reachable state `libSusp` account 0 is
authorized but suspended until day 100; at day 50 `processBorrowing`
nevertheless succeeds, while the claim demands an `Unauthorized` failure.
Likewise in `libDam` the book is damaged and the borrow still succeeds:
`processBorrowing` checks neither suspension nor condition. -/
theorem c1_counterexample :
    Reachable libSusp 50 ∧
    userSusp.isSuspended 50 = true ∧ userSusp.isAuthorized = true ∧
    (libSusp.processBorrowing 50 100 0).isOk = true ∧
    Reachable libDam 0 ∧
    bookDam.physicalState = PhysicalState.damaged ∧
    (libDam.processBorrowing 0 100 0).isOk = true := by
  refine ⟨reachable_libSusp50, by decide, by decide, by decide,
    reachable_libDam, by decide, by decide⟩

/-- C1 (amended): `processBorrowing` validates, in this strict order: entry
exists, account exists, entry available, entry not restricted, account
authorized, account under its loan cap; it fails fast with the error of the
first violated check; in the source every `throw` precedes every mutation,
so a failing call leaves catalog, roster and ledger untouched (the embedding
returns no state on the error path).  Suspension and physical condition are
not part of the chain, so a suspended account that passes the six checks
succeeds. -/
theorem c1_borrow_check_order (lib : Library) (now bookId borrowerId : Nat) :
    (lib.getBook? bookId = none →
      lib.processBorrowing now bookId borrowerId = .error .bookNotFound) ∧
    (∀ book, lib.getBook? bookId = some book →
      ((lib.getUser? borrowerId = none →
        lib.processBorrowing now bookId borrowerId = .error .userNotFound) ∧
       (∀ borrower, lib.getUser? borrowerId = some borrower →
        ((book.isAvailable = false →
          lib.processBorrowing now bookId borrowerId =
            .error .bookNotAvailable) ∧
         (book.isAvailable = true → book.isRestricted = true →
          lib.processBorrowing now bookId borrowerId =
            .error .bookRestricted) ∧
         (book.isAvailable = true → book.isRestricted = false →
          borrower.isAuthorized = false →
          lib.processBorrowing now bookId borrowerId =
            .error .notAuthorized) ∧
         (book.isAvailable = true → book.isRestricted = false →
          borrower.isAuthorized = true →
          borrower.maxBooksAllowed ≤ borrower.borrowedBooks.length →
          lib.processBorrowing now bookId borrowerId =
            .error .maxBooksLimit) ∧
         (book.isAvailable = true → book.isRestricted = false →
          borrower.isAuthorized = true →
          borrower.borrowedBooks.length < borrower.maxBooksAllowed →
          (lib.processBorrowing now bookId borrowerId).isOk = true))))) :=
  processBorrowing_cases lib now bookId borrowerId

/-- C1, witness: the freshly registered (unauthorized) account of
`libRegisteredA` fails the authorization check on the available,
unrestricted book 100. -/
theorem c1_witness :
    libRegisteredA.processBorrowing 0 100 0 = .error .notAuthorized :=
  (((c1_borrow_check_order libRegisteredA 0 100 0).2 bookA (by decide)).2
    (mkBorrower 0) (by decide)).2.2.1 (by decide) (by decide) (by decide)

/-- C3, counterexample: a freshly constructed borrower is unauthorized, yet
`canBorrow` returns `true` (the source reads `this.isActive` without calling
the method; a function object is truthy), while the predicate the spec
states returns `false`. -/
theorem c3_counterexample :
    (mkBorrower 0).isAuthorized = false ∧
    Borrower.canBorrow (mkBorrower 0) 0 = true ∧
    Borrower.canBorrowSpec (mkBorrower 0) 0 = false := by decide

/-- C3 (amended): `canBorrow` is a pure predicate that returns `true`
exactly when the account holds strictly fewer open loans than
`maxBooksAllowed` and is not currently suspended; the account's
authorization is not consulted (replacing `isAuthorized` by any value does
not change the result). -/
theorem c3_canBorrow_characterization (b : Borrower) (now : Nat) :
    (Borrower.canBorrow b now = true ↔
      (b.borrowedBooks.length < b.maxBooksAllowed ∧
        b.isSuspended now = false)) ∧
    (∀ v : Bool,
      Borrower.canBorrow { b with isAuthorized := v } now =
        Borrower.canBorrow b now) := by
  constructor
  · rw [Borrower.canBorrow]
    simp [Bool.and_eq_true, Bool.not_eq_true']
  · intro v
    rfl

/-- The reference-category book used for C5. -/
def bookRef : Book := mkBook 200 BookCategory.reference 0

/-- Catalog with only the reference book. -/
def libRefShelved : Library :=
  { books := [bookRef], users := [], borrowingRecords := [], nextId := 0 }

/-- Reference book plus a fresh account. -/
def libRefRegistered : Library :=
  { books := [bookRef], users := [mkBorrower 0], borrowingRecords := [],
    nextId := 1 }

/-- Reference book plus an authorized account. -/
def libRefReady : Library :=
  { books := [bookRef], users := [userA], borrowingRecords := [],
    nextId := 1 }

theorem reachable_libRefReady : Reachable libRefReady 0 := by
  have h1 : Reachable libRefShelved 0 :=
    Reachable.step (Reachable.init 0)
      (Step.addBook _ 0 200 BookCategory.reference _ (by rfl))
  have h2 : Reachable libRefRegistered 0 :=
    Reachable.step h1 (Step.registerUser _ 0)
  exact Reachable.step h2 (Step.setAuthorized _ 0 0 true)

/-- C5: borrowing the reference-category book 200 at day 0 produces a loan
due at day 14: `calculateDueDate` adds `DEFAULT_BORROWING_PERIOD`
unconditionally and does not even receive the category, although the policy
table defines `REFERENCE_BORROWING_PERIOD = 7` for exactly this case. -/
theorem c5_reference_period_ignored :
    Reachable libRefReady 0 ∧
    bookRef.category = BookCategory.reference ∧
    (libRefReady.processBorrowing 0 200 0).toOption.map
      (fun p => p.2.dueDate) = some 14 ∧
    TIME_POLICIES.REFERENCE_BORROWING_PERIOD = 7 ∧
    (∀ borrowDate : Nat, Library.calculateDueDate borrowDate =
      borrowDate + TIME_POLICIES.DEFAULT_BORROWING_PERIOD) := by
  refine ⟨reachable_libRefReady, by decide, by decide, by decide,
    fun d => rfl⟩

/-- C2: in every state reachable through the engine's operations, a catalog
entry has `isAvailable = false` exactly when some loan record on it has
status Active or Extended (the engine in fact never produces Extended). -/
theorem c2_availability_iff_open_loan {lib : Library} {t : Nat}
    (h : Reachable lib t) :
    ∀ bk ∈ lib.books, (bk.isAvailable = false ↔
      ∃ r ∈ lib.borrowingRecords, r.bookId = bk.id ∧
        (r.status = .active ∨ r.status = .extended)) := by
  have hinv := reachable_inv h
  intro bk hbk
  constructor
  · intro hav
    obtain ⟨r, hr, hrb, hst⟩ := hinv.unavailActive bk hbk hav
    exact ⟨r, hr, hrb, Or.inl hst⟩
  · rintro ⟨r, hr, hrb, hst⟩
    have hact : r.status = .active := by
      rcases hst with hst | hst
      · exact hst
      · rcases hinv.statusOk r hr with h1 | h1 <;> rw [hst] at h1 <;>
          exact absurd h1 (by simp)
    by_cases hcontra : bk.isAvailable = true
    · exact absurd hact (hinv.availNoActive bk hbk hcontra r hr hrb)
    · revert hcontra
      cases bk.isAvailable <;> simp

/-- C2, witness: in the reachable post-borrow state the borrowed book is
unavailable and the equivalence is witnessed by the active record. -/
theorem c2_witness :
    bookAout.isAvailable = false ↔
      ∃ r ∈ libLoanedA.borrowingRecords, r.bookId = bookAout.id ∧
        (r.status = .active ∨ r.status = .extended) :=
  c2_availability_iff_open_loan reachable_libLoanedA bookAout (by decide)

/-- C6: in every reachable state, `getOverdueBorrowings` returns exactly the
open loan records (returnedAt unset and status not terminal) whose due date
is strictly before `now`, and the returned list is sorted ascending by due
date (the ledger is kept in due-date order: every record's due date is its
borrow date plus the fixed 14-day period, and records are appended as time
advances). -/
theorem c6_overdue_exact_sorted {lib : Library} {t : Nat}
    (h : Reachable lib t) :
    lib.getOverdueBorrowings t =
      lib.borrowingRecords.filter
        (fun r => recOpen r && decide (r.dueDate < t)) ∧
    (lib.getOverdueBorrowings t).Pairwise
      (fun r1 r2 => r1.dueDate ≤ r2.dueDate) := by
  have hinv := reachable_inv h
  constructor
  · rw [Library.getOverdueBorrowings]
    refine List.filter_congr ?_
    intro r hr
    rcases hinv.statusOk r hr with hst | hst
    · have hret : r.returnDate = none := (hinv.retIff r hr).mp hst
      simp [overdueMatch, recOpen, hst, hret]
    · obtain ⟨x, hx⟩ : ∃ x, r.returnDate = some x := by
        cases hrd : r.returnDate with
        | none =>
          have h2 := (hinv.retIff r hr).mpr hrd
          rw [hst] at h2
          exact absurd h2 (by simp)
        | some x => exact ⟨x, rfl⟩
      simp [overdueMatch, recOpen, hst, hx]
  · rw [Library.getOverdueBorrowings]
    exact List.Pairwise.sublist (List.filter_sublist _) hinv.sortedDue

/-- C6, witness: at day 20 the single overdue loan of the trace is listed,
equals the spec-side filter, and is sorted. -/
theorem c6_witness :
    libLoanedA.getOverdueBorrowings 20 =
      libLoanedA.borrowingRecords.filter
        (fun r => recOpen r && decide (r.dueDate < 20)) ∧
    (libLoanedA.getOverdueBorrowings 20).Pairwise
      (fun r1 r2 => r1.dueDate ≤ r2.dueDate) :=
  c6_overdue_exact_sorted reachable_libLoanedA20

/-- C7, counterexample: in the reachable state `libLoanedA` at day 20 the
loan is past due and unreturned; the scheduled scan
(`getOverdueBorrowings`) returns it, but its status is still `active`, not
`overdue` — the scan is a pure query; no engine operation ever assigns the
Overdue status, so the claimed Active-to-Overdue transition never happens. -/
theorem c7_counterexample :
    Reachable libLoanedA 20 ∧
    libLoanedA.getOverdueBorrowings 20 = [recA] ∧
    recA.dueDate < 20 ∧ recA.returnDate = none ∧
    recA.status = .active ∧ recA.status ≠ .overdue := by
  refine ⟨reachable_libLoanedA20, by decide, by decide, by decide,
    by decide, by decide⟩

/-- C7 (amended): the scheduled scan selects exactly the records with status
Active, due date strictly past, and no return date; it mutates nothing (it
is a pure function of the state, every returned record keeps status Active),
and re-running it at the same instant trivially yields the same set with no
transition error. -/
theorem c7_sweep_query (lib : Library) (now : Nat) :
    (∀ r ∈ lib.getOverdueBorrowings now,
      r.status = .active ∧ r.dueDate < now ∧ r.returnDate = none) ∧
    (∀ r ∈ lib.borrowingRecords, r.status = .active → r.dueDate < now →
      r.returnDate = none → r ∈ lib.getOverdueBorrowings now) := by
  constructor
  · intro r hr
    rw [Library.getOverdueBorrowings] at hr
    have h1 := List.mem_filter.mp hr
    have h2 := h1.2
    rw [overdueMatch, Bool.and_eq_true, Bool.and_eq_true] at h2
    exact ⟨by simpa using h2.1.1, by simpa using h2.1.2, by simpa using h2.2⟩
  · intro r hr h1 h2 h3
    rw [Library.getOverdueBorrowings]
    refine List.mem_filter.mpr ⟨hr, ?_⟩
    rw [overdueMatch]
    simp [h1, h2, h3]

/-- C7, witness: the swept loan of the concrete trace satisfies the
selection predicate - and is in particular still Active. -/
theorem c7_witness :
    recA.status = .active ∧ recA.dueDate < 20 ∧ recA.returnDate = none :=
  (c7_sweep_query libLoanedA 20).1 recA (by decide)

/-- C8: in every reachable state every account satisfies
`borrowedBooks.length ≤ maxBooksAllowed`; and a borrow for an account
already holding `maxBooksAllowed` open loans (entry present, available,
unrestricted, account authorized) fails with the limit error — in the
source every throw precedes every mutation, so the account's loans are
untouched. -/
theorem c8_loan_cap :
    (∀ (lib : Library) (t : Nat), Reachable lib t →
      ∀ u ∈ lib.users, u.borrowedBooks.length ≤ u.maxBooksAllowed) ∧
    (∀ (lib : Library) (now b uId : Nat) (book : Book) (usr : Borrower),
      lib.getBook? b = some book → book.isAvailable = true →
      book.isRestricted = false →
      lib.getUser? uId = some usr → usr.isAuthorized = true →
      usr.borrowedBooks.length = usr.maxBooksAllowed →
      lib.processBorrowing now b uId = .error .maxBooksLimit) := by
  constructor
  · intro lib t hr
    exact (reachable_inv hr).capOk
  · intro lib now b uId book usr hb hav hres hu hauth hcap
    exact (((processBorrowing_cases lib now b uId).2 book hb).2 usr
      hu).2.2.2.1 hav hres hauth (le_of_eq hcap.symm)

/-- Account 0 already holding three open loans (its cap). -/
def userFull : Borrower :=
  { mkBorrower 0 with isAuthorized := true, borrowedBooks := [7, 8, 9] }

/-- Ready state whose only account is at its loan cap. -/
def libFull : Library :=
  { books := [bookA], users := [userFull], borrowingRecords := [],
    nextId := 1 }

/-- C8, witness: the invariant at the reachable post-borrow state, and the
limit failure of a fourth borrow at the cap. -/
theorem c8_witness :
    userAout.borrowedBooks.length ≤ userAout.maxBooksAllowed ∧
    libFull.processBorrowing 0 100 0 = .error .maxBooksLimit :=
  ⟨c8_loan_cap.1 libLoanedA 0 reachable_libLoanedA userAout (by decide),
   c8_loan_cap.2 libFull 0 100 0 bookA userFull (by decide) (by decide)
     (by decide) (by decide) (by decide) (by decide)⟩

/-- Book 100 after staff restricted it. -/
def bookARestricted : Book := { bookA with isRestricted := true }

/-- Restricted book plus a freshly registered (unauthorized) account. -/
def libRestrictedReg : Library :=
  { books := [bookARestricted], users := [mkBorrower 0],
    borrowingRecords := [], nextId := 1 }

/-- C10, counterexample: a freshly registered account is indeed
unauthorized, but choosing a restricted entry makes the borrow fail with the
restriction error, not the not-authorized error: the claimed error is not
produced "regardless of the entry chosen" because the entry checks run
first. -/
theorem c10_counterexample :
    Reachable libRestrictedReg 0 ∧
    (mkBorrower 0).isAuthorized = false ∧
    libRestrictedReg.processBorrowing 0 100 0 = .error .bookRestricted ∧
    LibError.bookRestricted ≠ LibError.notAuthorized := by
  refine ⟨Reachable.step reachable_libRegisteredA
    (Step.setRestricted _ 0 100 true), by decide, by rfl, by decide⟩

/-- C10 (amended): `registerUser` creates accounts with
`isAuthorized = false` and loan cap 3; every borrow by an unauthorized
account fails (no borrow of any entry can succeed before a staff action
sets `isAuthorized`), and the failure is the not-authorized error whenever
the chosen entry exists, is available and is unrestricted. -/
theorem c10_fresh_account_unauthorized :
    (∀ lib : Library, (lib.registerUser).2.isAuthorized = false ∧
      (lib.registerUser).2.maxBooksAllowed = 3) ∧
    (∀ (lib : Library) (now b u : Nat) (usr : Borrower),
      lib.getUser? u = some usr → usr.isAuthorized = false →
      (lib.processBorrowing now b u).isOk = false) ∧
    (∀ (lib : Library) (now b u : Nat) (book : Book) (usr : Borrower),
      lib.getBook? b = some book → book.isAvailable = true →
      book.isRestricted = false → lib.getUser? u = some usr →
      usr.isAuthorized = false →
      lib.processBorrowing now b u = .error .notAuthorized) := by
  refine ⟨fun lib => ⟨rfl, rfl⟩, ?_, ?_⟩
  · intro lib now b u usr hu hauth
    exact borrow_unauthorized_fails hu hauth
  · intro lib now b u book usr hb hav hres hu hauth
    exact (((processBorrowing_cases lib now b u).2 book hb).2 usr
      hu).2.2.1 hav hres hauth

/-- C10, witness: the freshly registered account of the trace cannot borrow
the available unrestricted book, and the error is the not-authorized one. -/
theorem c10_witness :
    ((emptyLibrary.registerUser).2.isAuthorized = false ∧
      (emptyLibrary.registerUser).2.maxBooksAllowed = 3) ∧
    (libRegisteredA.processBorrowing 0 100 0).isOk = false ∧
    libRegisteredA.processBorrowing 0 100 0 = .error .notAuthorized :=
  ⟨c10_fresh_account_unauthorized.1 emptyLibrary,
   c10_fresh_account_unauthorized.2.1 libRegisteredA 0 100 0 (mkBorrower 0)
     (by decide) (by decide),
   c10_fresh_account_unauthorized.2.2 libRegisteredA 0 100 0 bookA
     (mkBorrower 0) (by decide) (by decide) (by decide) (by decide)
     (by decide)⟩

/-- The success equation of `processReturn`, given the three lookups. -/
theorem processReturn_eq_ok {lib : Library} {t b u : Nat} {book : Book}
    {borrower : Borrower} {rec : BorrowingRecord}
    (hbk : lib.getBook? b = some book) (hu : lib.getUser? u = some borrower)
    (hfind : lib.borrowingRecords.find? (returnMatch b u) = some rec) :
    lib.processReturn t b u = .ok { lib with
      books := updateBookList lib.books
        { book with isAvailable := true, lastModified := t }
      users := updateUserList lib.users (returnedUser borrower b)
      borrowingRecords := updateRecordList lib.borrowingRecords
        { rec with returnDate := some t, status := .returned } } := by
  rw [Library.processReturn, hbk, hu, hfind]
  rfl

/-- The book of the trace after its return at day `t2`. -/
def bookAReturned (t2 : Nat) : Book :=
  { bookAout with isAvailable := true, lastModified := t2 }

/-- The loan record of the trace after its return at day `t2`. -/
def recAReturned (t2 : Nat) : BorrowingRecord :=
  { recA with returnDate := some t2, status := BorrowingStatus.returned }

/-- The post-state of returning book 100 of the trace at day `t2`. -/
def returnedState (t2 : Nat) : Library :=
  { books := [bookAReturned t2],
    users := [{ userAout with borrowedBooks := [] }],
    borrowingRecords := [recAReturned t2],
    nextId := 2 }

/-- C4, counterexample: returning the loan two days late (day 16, due day
14) produces exactly `returnedState 16`, and the on-time return (day 14)
produces exactly `returnedState 14`: the two post-states differ only in the
recorded timestamp, so no late fee is computed or stored anywhere, whereas
the spec's formula demands the fee 1/2 for the late return (grace 1 day,
0.5 per day, cap 50 from `FEE_POLICIES`). -/
theorem c4_counterexample :
    libLoanedA.processReturn 16 100 0 = .ok (returnedState 16) ∧
    libLoanedA.processReturn 14 100 0 = .ok (returnedState 14) ∧
    recA.dueDate < 16 ∧ ¬(recA.dueDate < 14) ∧
    lateFeeSpec (16 - recA.dueDate) = 1 / 2 ∧ (1 / 2 : ℚ) ≠ 0 := by
  refine ⟨by rfl, by rfl, by decide, by decide, ?_, by norm_num⟩
  show lateFeeSpec 2 = 1 / 2
  rw [lateFeeSpec]
  norm_num [FEE_POLICIES.LATE_FEE_PER_DAY, FEE_POLICIES.MAX_LATE_FEE,
    FEE_POLICIES.LATE_FEE_GRACE_PERIOD]

/-- C4 (amended): a successful return sets `returnDate = now` and
`status = Returned` on the matched open loan, and the in-place update of
that one record is the only ledger change: no late fee is computed or
stored (`processReturn` never reads `FEE_POLICIES`, and no entity of the
data model has a field that could hold a fee). -/
theorem c4_return_no_fee {lib : Library} {t b u : Nat} {lib' : Library}
    (h : lib.processReturn t b u = .ok lib') :
    ∃ rec, lib.borrowingRecords.find? (returnMatch b u) = some rec ∧
      lib'.borrowingRecords = updateRecordList lib.borrowingRecords
        { rec with returnDate := some t, status := .returned } ∧
      ∃ rr ∈ lib'.borrowingRecords, rr.id = rec.id ∧
        rr.returnDate = some t ∧ rr.status = .returned := by
  obtain ⟨book, borrower, rec, hbk, hu, hfind, hlib⟩ := processReturn_ok h
  subst hlib
  refine ⟨rec, hfind, rfl, ?_⟩
  have hrecmem : rec ∈ lib.borrowingRecords := List.mem_of_find?_eq_some hfind
  exact ⟨_, mem_updateByKey_self hrecmem rfl, rfl, rfl, rfl⟩

/-- C4, witness: the late return of the trace at day 16. -/
theorem c4_witness :
    ∃ rec, libLoanedA.borrowingRecords.find? (returnMatch 100 0) = some rec ∧
      (returnedState 16).borrowingRecords =
        updateRecordList libLoanedA.borrowingRecords
          { rec with returnDate := some 16, status := .returned } ∧
      ∃ rr ∈ (returnedState 16).borrowingRecords, rr.id = rec.id ∧
        rr.returnDate = some 16 ∧ rr.status = .returned :=
  c4_return_no_fee (show libLoanedA.processReturn 16 100 0 =
    Except.ok (returnedState 16) by rfl)

/-- C9: from any reachable state in which `borrow(e,a)` succeeds, the
following `return(e,a)` (at any time `t2 ≥ t`) succeeds, restores the
entry's availability, removes the entry from the account's open-loan list,
and leaves the created loan record with status Returned and its return
date set. -/
theorem c9_round_trip {lib : Library} {t b u : Nat} {lib1 : Library}
    {r : BorrowingRecord} (hreach : Reachable lib t)
    (hborrow : lib.processBorrowing t b u = .ok (lib1, r))
    (t2 : Nat) (ht : t ≤ t2) :
    ∃ lib2, lib1.processReturn t2 b u = .ok lib2 ∧
      (∃ bk ∈ lib2.books, bk.id = b ∧ bk.isAvailable = true) ∧
      (∀ usr ∈ lib2.users, usr.id = u → b ∉ usr.borrowedBooks) ∧
      (∃ rr ∈ lib2.borrowingRecords, rr.id = r.id ∧ rr.status = .returned ∧
        rr.returnDate = some t2) := by
  have hinv := reachable_inv hreach
  obtain ⟨book, borrower, hbk, hu, hav, hres, hauth, hcap, hrEq, hlib⟩ :=
    processBorrowing_ok hborrow
  obtain ⟨hbkmem, hbkid⟩ := getBook?_some hbk
  obtain ⟨humem, huid⟩ := getUser?_some hu
  subst hrEq
  have hgb1 : lib1.getBook? b = some (borrowedBook book lib.nextId t) := by
    rw [hlib]
    exact find?_key_updateByKey Book.id hbk rfl
  have hgu1 : lib1.getUser? u = some (borrowedUser borrower b lib.nextId) := by
    rw [hlib]
    exact find?_key_updateByKey Borrower.id hu rfl
  have hnone : lib.borrowingRecords.find? (returnMatch b u) = none := by
    rw [List.find?_eq_none]
    intro x hx hmatch
    obtain ⟨hxb, hxu, hxst⟩ := returnMatch_true hmatch
    exact (hinv.availNoActive book hbkmem hav x hx (by rw [hxb, hbkid])) hxst
  have hfind1 : lib1.borrowingRecords.find? (returnMatch b u) =
      some (mkBorrowingRecord lib.nextId b u t
        (t + TIME_POLICIES.DEFAULT_BORROWING_PERIOD)) := by
    rw [hlib]
    show (lib.borrowingRecords ++ [mkBorrowingRecord lib.nextId b u t
      (t + TIME_POLICIES.DEFAULT_BORROWING_PERIOD)]).find?
        (returnMatch b u) = _
    rw [List.find?_append, hnone, Option.none_or]
    refine List.find?_cons_of_pos _ ?_
    rw [returnMatch]
    simp [mkBorrowingRecord]
  refine ⟨_, processReturn_eq_ok (t := t2) hgb1 hgu1 hfind1, ?_, ?_, ?_⟩
  · have hmem1 : borrowedBook book lib.nextId t ∈ lib1.books := by
      rw [hlib]
      exact mem_updateByKey_self hbkmem rfl
    exact ⟨_, mem_updateByKey_self hmem1 rfl, hbkid, rfl⟩
  · intro usr husr hid
    rcases mem_updateByKey husr with h1 | ⟨h1mem, h1ne⟩
    · rw [h1]
      intro hcontra
      have h2 := List.mem_filter.mp hcontra
      simp at h2
    · exfalso
      refine h1ne ?_
      show usr.id = borrower.id
      rw [hid, huid]
  · have hmem1 : mkBorrowingRecord lib.nextId b u t
        (t + TIME_POLICIES.DEFAULT_BORROWING_PERIOD) ∈
        lib1.borrowingRecords := by
      rw [hlib]
      exact List.mem_append_right _ (by simp)
    exact ⟨_, mem_updateByKey_self hmem1 rfl, rfl, rfl, rfl⟩

/-- C9, witness: the borrow of the trace followed by the return at day 20. -/
theorem c9_witness :
    ∃ lib2, libLoanedA.processReturn 20 100 0 = .ok lib2 ∧
      (∃ bk ∈ lib2.books, bk.id = 100 ∧ bk.isAvailable = true) ∧
      (∀ usr ∈ lib2.users, usr.id = 0 → 100 ∉ usr.borrowedBooks) ∧
      (∃ rr ∈ lib2.borrowingRecords, rr.id = recA.id ∧
        rr.status = .returned ∧ rr.returnDate = some 20) :=
  c9_round_trip reachable_libReadyA borrow_libReadyA 20 (by omega)

end LibSys
